import Mathlib

/-!
Verification development for the SpotifyClone repository: a shallow Lean
embedding of the scrape/reconcile/batch pipeline (the proxy scraper in
spotify-proxy-server/server.js, the library walker, match loop, batch
writer and task controller state in the main application component) with
theorems settling the specification claims.
-/

namespace SpotifyClone

/-! ## HTML scraper and proxy endpoint (spotify-proxy-server/server.js) -/

/-- Whitespace characters removed by the JavaScript trim calls in server.js
(ASCII subset of the JS whitespace class). -/
def isJsSpace (c : Char) : Bool :=
  c = ' ' || c = '\t' || c = '\n' || c = '\r' || c = '\x0b' || c = '\x0c'

/-- The JavaScript trim: drop leading and trailing whitespace. -/
def jsTrim (s : String) : String :=
  String.mk (((s.data.dropWhile isJsSpace).reverse.dropWhile isJsSpace).reverse)

/-- One playlist-item container element of the fetched page: the text content
of its title child and of its musicians child, as extracted by the two
selector lookups in server.js (a missing child yields the empty string). -/
structure RawItem where
  titleText : String
  musiciansText : String
deriving DecidableEq

/-- One entry of the proxy response body. -/
structure ScrapedTrack where
  title : String
  composer : String
deriving DecidableEq

/-- Per-item extraction from server.js: trim the title text and the musicians
text, and emit the pair only when both are non-empty (the JS truthiness test
on the two trimmed strings). -/
def scrapeItem (r : RawItem) : Option ScrapedTrack :=
  let title := jsTrim r.titleText
  let composer := jsTrim r.musiciansText
  if title = "" then none
  else if composer = "" then none
  else some ⟨title, composer⟩

/-- The scraping loop of server.js over all playlist-item containers. -/
def scrape (items : List RawItem) : List ScrapedTrack :=
  items.filterMap scrapeItem

/-- The hardcoded scrape target of server.js line 23. -/
def wqxrUrl : String :=
  "https://wqxr-legacy.prod.nypr.digital/playlist-daily/2025/jun/12/?scheduleStation=q2"

/-- The URL the proxy fetches once the date parameters passed validation.
The source assigns the constant above and never interpolates the supplied
year, month or day into it. -/
def scrapeTargetUrl (year month day : String) : String :=
  wqxrUrl

/-- Query parameters of a GET /wqxr-playlist request; none models an absent
parameter. -/
structure ProxyQuery where
  year : Option String
  month : Option String
  day : Option String
deriving DecidableEq

/-- JavaScript truthiness of a query parameter: present and non-empty. -/
def paramTruthy (p : Option String) : Bool :=
  match p with
  | none => false
  | some s => !(s = "")

/-- Response of the proxy endpoint. -/
inductive ProxyResponse where
  | ok (tracks : List ScrapedTrack)
  | badRequest (error : String)
  | serverError (error : String)
deriving DecidableEq

/-- The GET /wqxr-playlist handler of server.js: reject with 400 when any of
the three date parameters is falsy; otherwise fetch the scrape target (the
upstream is modelled as a function from URL to either the page's playlist
items or a fetch failure), run the scraping loop, and answer 200 with the
extracted tracks, or 500 when the fetch failed. -/
def wqxrHandler (q : ProxyQuery)
    (upstream : String → Except String (List RawItem)) : ProxyResponse :=
  match q.year, q.month, q.day with
  | some y, some m, some d =>
    if paramTruthy (some y) && paramTruthy (some m) && paramTruthy (some d) then
      match upstream (scrapeTargetUrl y m d) with
      | .ok items => .ok (scrape items)
      | .error _ => .serverError "Failed to fetch playlist data from WQXR."
    else .badRequest "Missing required date parameters (year, month, day)."
  | _, _, _ => .badRequest "Missing required date parameters (year, month, day)."

/-! ## PKCE login flow (src/src/App.jsx lines 33-95) -/

/-- Constructor names that resolve in the browser global scope, as relevant
to generateCodeChallenge. No JavaScript runtime defines Uint9Array. -/
def browserGlobalConstructors : List String :=
  ["TextEncoder", "Uint8Array", "Uint16Array", "Uint32Array", "Int8Array",
   "Float64Array", "Array", "ArrayBuffer", "String", "Object"]

/-- Evaluation of a new-expression head: resolving an identifier that is not
a defined global throws a ReferenceError. -/
def lookupGlobalConstructor (name : String) : Except String Unit :=
  if name ∈ browserGlobalConstructors then .ok ()
  else .error ("ReferenceError: " ++ name ++ " is not defined")

/-- Shallow embedding of generateCodeChallenge (src/src/App.jsx lines 42-49):
the TextEncoder encode and the SHA-256 digest steps succeed, then the body
evaluates a new-expression whose head is the identifier Uint9Array before any
base64 conversion can run. An Except error models the thrown exception. -/
def generateCodeChallenge (codeVerifier : String) : Except String String := do
  let digestInput := codeVerifier
  let _ ← lookupGlobalConstructor "TextEncoder"
  let _ ← lookupGlobalConstructor "Uint9Array"
  .ok ("base64url-of-sha256:" ++ digestInput)

/-- Outcome of a handleLogin invocation that did not throw. -/
inductive LoginOutcome where
  | loginError (msg : String)
  | redirect (clientId challenge : String)
deriving DecidableEq

/-- Shallow embedding of handleLogin (src/src/App.jsx lines 73-95): an empty
client id sets a login error; otherwise the handler awaits
generateCodeChallenge (any exception there propagates out of the handler)
and then assigns the authorization redirect built from the client id and the
code challenge. -/
def handleLogin (clientId verifier : String) : Except String LoginOutcome :=
  if clientId = "" then
    .ok (.loginError "Please enter a valid Spotify Client ID.")
  else
    match generateCodeChallenge verifier with
    | .error e => .error e
    | .ok challenge => .ok (.redirect clientId challenge)

/-! ## Batch writer (part_000 lines 1338-1383, handleCreateAllSongsPlaylist) -/

/-- Spotify's maximum playlist size, the SPOTIFY_PLAYLIST_LIMIT constant. -/
def SPOTIFY_PLAYLIST_LIMIT : Nat := 10000

/-- The chunkSizeForAdding constant of the append loop. -/
def chunkSizeForAdding : Nat := 100

/-- A slicing for-loop, head of both batching loops in the source: the loop
runs ceil(len/k) times and the iteration with start index j*k takes the
slice of at most k items starting there. -/
def sliceLoop (k : Nat) (l : List α) : List (List α) :=
  (List.range ((l.length + (k - 1)) / k)).map fun j => (l.drop (j * k)).take k

/-- The append loop of the batch writer: the track URIs of one collection are
sent in slices of at most chunkSizeForAdding items, one append call each. -/
def appendTrackChunks (uris : List String) : List (List String) :=
  sliceLoop chunkSizeForAdding uris

/-- The name given to part p (zero-based) of the all-songs rollup. -/
def allSongsPartName (p : Nat) (dateStr : String) : String :=
  "All My Playlists Songs - Part " ++ toString (p + 1) ++ " - " ++ dateStr

/-- One created collection: its name and the chunked append calls issued
for it, in order. -/
structure CreatedCollection where
  name : String
  chunks : List (List String)
deriving DecidableEq

/-- The outer batching loop of handleCreateAllSongsPlaylist: the unique URIs
are split into ceil(N/SPOTIFY_PLAYLIST_LIMIT) collections; part p holds the
slice of at most SPOTIFY_PLAYLIST_LIMIT URIs starting at p*SPOTIFY_PLAYLIST_LIMIT
and is populated by the chunked append loop. -/
def createAllSongsCollections (dateStr : String) (uris : List String) :
    List CreatedCollection :=
  (List.range ((uris.length + (SPOTIFY_PLAYLIST_LIMIT - 1)) / SPOTIFY_PLAYLIST_LIMIT)).map
    fun p =>
      { name := allSongsPartName p dateStr,
        chunks := appendTrackChunks
          ((uris.drop (p * SPOTIFY_PLAYLIST_LIMIT)).take SPOTIFY_PLAYLIST_LIMIT) }

/-! ## Library walker (part_000 lines 947-1000,
fetchUniqueTrackUisAndArtistIdsFromPlaylists) -/

/-- An artists array entry of a track object. -/
structure SpotifyArtist where
  id : String
deriving DecidableEq

/-- A track object of a playlist-tracks page item; uri is none when the field
is absent or not a string. -/
structure SpotifyTrack where
  uri : Option String
  artists : List SpotifyArtist
deriving DecidableEq

/-- One element of a playlist-tracks page's items array; track is none when
the remote API returned a null track. -/
structure PlaylistTrackItem where
  track : Option SpotifyTrack
deriving DecidableEq

/-- One response of the per-playlist track pagination: either a non-ok
response (the walker logs a warning and stops paging this playlist) or a
page whose items field may be absent. -/
inductive TrackPage where
  | fetchFailed (status : Nat)
  | page (items : Option (List PlaylistTrackItem))
deriving DecidableEq

/-- One playlist as seen by the walker: its name and the sequence of pages
its tracks pagination yields. -/
structure PlaylistData where
  name : String
  trackPages : List TrackPage
deriving DecidableEq

/-- One response of the my-playlists pagination: a non-ok response makes the
whole walk throw, an ok page contributes its playlists. -/
inductive PlaylistsPage where
  | fetchFailed (status : Nat)
  | page (items : List PlaylistData)
deriving DecidableEq

/-- Accumulator of the walk: the two JS Sets in insertion order, plus the
count of console warnings issued so far. -/
structure WalkState where
  uniqueTrackUris : List String
  uniqueArtistIds : List String
  warnings : Nat
deriving DecidableEq

/-- JS Set add: append the element unless already present. -/
def setAdd (s : List String) (x : String) : List String :=
  if x ∈ s then s else s ++ [x]

/-- The well-formedness test the walker applies to a track URI, the JS
startsWith check on the code points of the string. -/
def isWellFormedTrackUri (u : String) : Bool :=
  "spotify:track:".data.isPrefixOf u.data

/-- Per-item processing of the walker: a present track whose uri is a string
with the spotify:track: scheme contributes its uri and its artists' ids;
anything else is skipped with a console warning. -/
def processTrackItem (st : WalkState) (it : PlaylistTrackItem) : WalkState :=
  match it.track with
  | some t =>
    match t.uri with
    | some u =>
      if isWellFormedTrackUri u then
        { st with
          uniqueTrackUris := setAdd st.uniqueTrackUris u,
          uniqueArtistIds := t.artists.foldl (fun s a => setAdd s a.id) st.uniqueArtistIds }
      else { st with warnings := st.warnings + 1 }
    | none => { st with warnings := st.warnings + 1 }
  | none => { st with warnings := st.warnings + 1 }

/-- The inner while loop over one playlist's track pages: a failed page fetch
logs a warning and breaks out of this playlist's pagination; an ok page folds
its items (when the items field is present) into the accumulator. -/
def processTrackPages (st : WalkState) : List TrackPage → WalkState
  | [] => st
  | .fetchFailed _ :: _ => { st with warnings := st.warnings + 1 }
  | .page items :: rest =>
    let st2 :=
      match items with
      | some its => its.foldl processTrackItem st
      | none => st
    processTrackPages st2 rest

/-- The walker's per-playlist loop over the already-collected playlists. -/
def walkPlaylists (playlists : List PlaylistData) : WalkState :=
  playlists.foldl (fun st pl => processTrackPages st pl.trackPages)
    { uniqueTrackUris := [], uniqueArtistIds := [], warnings := 0 }

/-- The my-playlists pagination: concatenate the pages' items in order; a
non-ok response throws and aborts the walk. -/
def collectPlaylists : List PlaylistsPage → Except String (List PlaylistData)
  | [] => .ok []
  | .fetchFailed status :: _ =>
    .error ("Failed to fetch playlists: " ++ toString status)
  | .page items :: rest =>
    (collectPlaylists rest).map fun tail => items ++ tail

/-- The whole walk of fetchUniqueTrackUisAndArtistIdsFromPlaylists: page
through my-playlists (throwing on a failed page), throw on an empty library,
then fold every playlist's track pages into the dedup sets. -/
def fetchUniqueTrackUisAndArtistIdsFromPlaylists (pages : List PlaylistsPage) :
    Except String WalkState :=
  match collectPlaylists pages with
  | .error e => .error e
  | .ok allPlaylists =>
    if allPlaylists = [] then
      .error "You have no playlists in your Spotify library."
    else
      .ok (walkPlaylists allPlaylists)

/-! ## Cooperative cancellation (the AbortController pattern shared by the
five curation handlers of part_000) -/

/-- The kinds of network calls a curation task suspends on. -/
inductive NetOp where
  | pageFetch
  | searchCall
  | createCall
  | chunkAppend
  | proxyFetch
deriving DecidableEq

/-- Terminal state of a curation task run. -/
inductive TaskTerminal where
  | succeeded
  | cancelled
  | failedTask (msg : String)
deriving DecidableEq

/-- Runs a task's suspension points in order against the abort signal each
handler threads through every fetch: abortAfter is the number of network
calls completed before the controller aborts; every later fetch observes the
aborted signal and rejects with AbortError before performing any network
activity, and the handler's catch clause maps AbortError to the cancelled
status rather than to the error state. Returns the network calls actually
performed, in order, together with the terminal state. -/
def runWithAbortSignal (abortAfter : Nat) (ops : List NetOp) :
    List NetOp × TaskTerminal :=
  match ops, abortAfter with
  | [], _ => ([], .succeeded)
  | _ :: _, 0 => ([], .cancelled)
  | op :: rest, n + 1 =>
    let r := runWithAbortSignal n rest
    (op :: r.1, r.2)

/-- The suspension points of one handleCreateAllSongsPlaylist run: the
playlist listing pages, the per-playlist track pages, then per created
collection one create call followed by its chunked append calls. -/
def allSongsNetOps (playlistPageCount trackPageCount : Nat)
    (dateStr : String) (uris : List String) : List NetOp :=
  List.replicate playlistPageCount NetOp.pageFetch ++
  List.replicate trackPageCount NetOp.pageFetch ++
  (createAllSongsCollections dateStr uris).flatMap
    fun c => NetOp.createCall :: c.chunks.map fun _ => NetOp.chunkAppend

/-! ## Task controller mutual exclusion (part_000 line 2223 and the disabled
attributes of the five creator buttons) -/

/-- The five loading flags of the playlist creator component. -/
structure CreatorLoadingState where
  isWqxrLoading : Bool
  isCustomLoading : Bool
  isTopTracksLoading : Bool
  isAllSongsLoading : Bool
  isGenreFusionLoading : Bool
deriving DecidableEq

/-- The derived guard of part_000 line 2223. -/
def isAnyCurationLoading (s : CreatorLoadingState) : Bool :=
  s.isWqxrLoading || s.isCustomLoading || s.isTopTracksLoading ||
  s.isAllSongsLoading || s.isGenreFusionLoading

/-- The five curation task kinds. -/
inductive CurationKind where
  | wqxr
  | ai
  | topTracks
  | allSongs
  | genreFusion
deriving DecidableEq

/-- Writes one loading flag. -/
def setLoading (k : CurationKind) (b : Bool) (s : CreatorLoadingState) :
    CreatorLoadingState :=
  match k with
  | .wqxr => { s with isWqxrLoading := b }
  | .ai => { s with isCustomLoading := b }
  | .topTracks => { s with isTopTracksLoading := b }
  | .allSongs => { s with isAllSongsLoading := b }
  | .genreFusion => { s with isGenreFusionLoading := b }

/-- A click on the start button of task kind k: every creator button carries
the disabled attribute isAnyCurationLoading, so the click is dropped while
any task is running; otherwise the handler sets its loading flag. -/
def clickStart (k : CurationKind) (s : CreatorLoadingState) : CreatorLoadingState :=
  if isAnyCurationLoading s then s else setLoading k true s

/-- Termination of a running task of kind k: its finally clause clears the
flag. -/
def finishTask (k : CurationKind) (s : CreatorLoadingState) : CreatorLoadingState :=
  setLoading k false s

/-- Observable events of the creator component. -/
inductive CreatorEvent where
  | click (k : CurationKind)
  | finish (k : CurationKind)
deriving DecidableEq

/-- One step of the creator state machine. -/
def creatorStep (s : CreatorLoadingState) (e : CreatorEvent) : CreatorLoadingState :=
  match e with
  | .click k => clickStart k s
  | .finish k => finishTask k s

/-- The initial state: no task loading. -/
def creatorInit : CreatorLoadingState :=
  { isWqxrLoading := false, isCustomLoading := false, isTopTracksLoading := false,
    isAllSongsLoading := false, isGenreFusionLoading := false }

/-- Runs a sequence of creator events from the initial state. -/
def runCreatorEvents (evs : List CreatorEvent) : CreatorLoadingState :=
  evs.foldl creatorStep creatorInit

/-- Number of tasks currently running. -/
def loadingCount (s : CreatorLoadingState) : Nat :=
  (cond s.isWqxrLoading 1 0) + (cond s.isCustomLoading 1 0) +
  (cond s.isTopTracksLoading 1 0) + (cond s.isAllSongsLoading 1 0) +
  (cond s.isGenreFusionLoading 1 0)

/-! ## Batch writer failure behaviour (part_000 lines 1341-1402) -/

/-- Terminal component state after a handleCreateAllSongsPlaylist run, as
surfaced to the caller: the createdPlaylist state (reset to null at the start
of the run and assigned only on the success path, from element 0 of the local
createdPlaylistsInfo array), the creatorError message, plus the remote
side effects that are never rolled back: the names of the collections created
and the number of chunk appends that succeeded. -/
structure AllSongsRunResult where
  createdPlaylistSurfaced : Option String
  creatorError : Option String
  remoteCreated : List String
  remoteChunksAppended : Nat
deriving DecidableEq

/-- The chunked append loop for one collection with failure injection:
callIdx numbers append calls globally across the whole run, and the call
numbered failAt responds non-ok, which the source turns into a thrown error.
Returns the number of chunks appended, the next global call index, and
whether the loop completed. -/
def runAppendLoop : List (List String) → Nat → Option Nat → Nat × Nat × Bool
  | [], idx, _ => (0, idx, true)
  | _ :: rest, idx, failAt =>
    if failAt = some idx then (0, idx, false)
    else
      let r := runAppendLoop rest (idx + 1) failAt
      (r.1 + 1, r.2.1, r.2.2)

/-- The outer collection loop with failure injection: each create call
succeeds and pushes the new collection, then its chunks are appended; a
failed append throws out of both loops. Returns the created collection
names, the number of chunks appended, and whether every append succeeded. -/
def runCollectionsLoop : List CreatedCollection → Nat → Option Nat →
    List String × Nat × Bool
  | [], _, _ => ([], 0, true)
  | c :: rest, idx, failAt =>
    let a := runAppendLoop c.chunks idx failAt
    if a.2.2 then
      let r := runCollectionsLoop rest a.2.1 failAt
      (c.name :: r.1, a.1 + r.2.1, r.2.2)
    else
      ([c.name], a.1, false)

/-- A full handleCreateAllSongsPlaylist batching stage with failure
injection: on an empty URI list the handler throws before creating anything;
otherwise the collections are created and populated until the injected
append failure, if any. On success, setCreatedPlaylist receives
createdPlaylistsInfo element 0 only; on a thrown append error the catch
clause sets creatorError and setCreatedPlaylist is never reached, so the
surfaced createdPlaylist stays null. -/
def runAllSongsBatch (dateStr : String) (uris : List String)
    (failAt : Option Nat) : AllSongsRunResult :=
  if uris = [] then
    { createdPlaylistSurfaced := none,
      creatorError := some "Could not find any unique songs across your playlists.",
      remoteCreated := [], remoteChunksAppended := 0 }
  else
    let r := runCollectionsLoop (createAllSongsCollections dateStr uris) 0 failAt
    if r.2.2 then
      { createdPlaylistSurfaced := r.1.head?,
        creatorError := none,
        remoteCreated := r.1, remoteChunksAppended := r.2.1 }
    else
      { createdPlaylistSurfaced := none,
        creatorError := some "Failed to add tracks to playlist",
        remoteCreated := r.1, remoteChunksAppended := r.2.1 }

/-- Total number of append calls a fully successful run issues. -/
def totalAppendCalls (dateStr : String) (uris : List String) : Nat :=
  ((createAllSongsCollections dateStr uris).map fun c => c.chunks.length).sum

/-! ## Match engine error behaviour (part_000 lines 1034-1044, the WQXR
search loop; the loop of src/src/App.jsx lines 830-843 is identical) -/

/-- One response of the search endpoint for one (title, composer) query:
an ok response carries the URIs of body.tracks.items, a non-2xx response
carries an error body with no tracks field. -/
inductive SearchOutcome where
  | okItems (uris : List String)
  | httpError (status : Nat)
deriving DecidableEq

/-- The first-candidate selection applied to one ok response. -/
def firstCandidate : SearchOutcome → Option String
  | .okItems (u :: _) => some u
  | .okItems [] => none
  | .httpError _ => none

/-- The search loop of handleCreateWQXRPlaylist: for each query it reads
searchData.tracks.items and pushes the first item's uri when the array is
non-empty. The source never tests response.ok here, so on a non-2xx response
the body has no tracks field and the member access throws a TypeError, which
the outer catch clause turns into the run's error state; the pushed URIs of
earlier queries are discarded with the aborted run. -/
def wqxrSearchLoop : List SearchOutcome → Except String (List String)
  | [] => .ok []
  | .httpError _ :: _ =>
    .error "TypeError: Cannot read properties of undefined (reading items)"
  | .okItems items :: rest => do
    let tail ← wqxrSearchLoop rest
    match items with
    | u :: _ => .ok (u :: tail)
    | [] => .ok tail

/-! ## Progress reporting of the all-songs rollup (part_000 lines 1325-1385) -/

/-- Running sums of a list of chunk sizes starting from acc: the value of the
source's currentOverallProgress counter after each append call, since
startIdx + i + chunk.length is the total number of URIs appended so far. -/
def runningSums (acc : Nat) : List Nat → List Nat
  | [] => []
  | n :: rest => (acc + n) :: runningSums (acc + n) rest

/-- The sizes of all append chunks of a run, in call order. -/
def allSongsChunkSizes (dateStr : String) (uris : List String) : List Nat :=
  ((createAllSongsCollections dateStr uris).map fun c => c.chunks.map List.length).flatten

/-- The progress value the source computes after an append call:
(currentOverallProgress / totalSongs) * 90 + 10, the JS numbers modelled as
exact rationals. -/
def chunkProgressValue (totalSongs c : Nat) : ℚ :=
  ((c : ℚ) / (totalSongs : ℚ)) * 90 + 10

/-- The sequence of values a successful handleCreateAllSongsPlaylist run
passes to setAllSongsProgress while running, in order: 0 at the start, 15
after the library scan, then the per-append-call value, and finally 100. On
an empty URI list the handler throws right after the initial 0. -/
def allSongsProgressUpdates (dateStr : String) (uris : List String) : List ℚ :=
  if uris = [] then [0]
  else
    0 :: 15 ::
      (((runningSums 0 (allSongsChunkSizes dateStr uris)).map
          (chunkProgressValue uris.length)) ++ [100])

/-! ## Helper lemmas on the slicing loop -/

theorem sliceLoop_length (k : Nat) (l : List α) :
    (sliceLoop k l).length = (l.length + (k - 1)) / k := by
  simp [sliceLoop]

theorem mem_sliceLoop {k : Nat} {l : List α} {c : List α} (hc : c ∈ sliceLoop k l) :
    ∃ j, j < (l.length + (k - 1)) / k ∧ c = (l.drop (j * k)).take k := by
  simp only [sliceLoop, List.mem_map, List.mem_range] at hc
  obtain ⟨j, hj, h⟩ := hc
  exact ⟨j, hj, h.symm⟩

theorem mem_sliceLoop_length_le {k : Nat} {l : List α} {c : List α}
    (hc : c ∈ sliceLoop k l) : c.length ≤ k := by
  obtain ⟨j, _, rfl⟩ := mem_sliceLoop hc
  simp only [List.length_take, List.length_drop]
  omega

theorem mem_sliceLoop_ne_nil {k : Nat} {l : List α} {c : List α} (hk : 0 < k)
    (hc : c ∈ sliceLoop k l) : c ≠ [] := by
  obtain ⟨j, hj, rfl⟩ := mem_sliceLoop hc
  have h1 : (j + 1) * k ≤ ((l.length + (k - 1)) / k) * k :=
    Nat.mul_le_mul_right k hj
  have h2 : ((l.length + (k - 1)) / k) * k ≤ l.length + (k - 1) :=
    Nat.div_mul_le_self _ _
  have h3 : j * k + k ≤ l.length + (k - 1) := by
    have h4 : j * k + k = (j + 1) * k := by ring
    omega
  apply List.length_pos.mp
  simp only [List.length_take, List.length_drop]
  omega

theorem sliceLoop_flatten {k : Nat} (hk : 0 < k) (l : List α) :
    (sliceLoop k l).flatten = l := by
  suffices h : ∀ (K : Nat) (l : List α), (l.length + (k - 1)) / k = K →
      ((List.range K).map fun j => (l.drop (j * k)).take k).flatten = l by
    exact h _ l rfl
  intro K
  induction K with
  | zero =>
    intro l hl
    have h0 : l.length = 0 := by
      have := (Nat.div_eq_zero_iff hk).mp hl
      omega
    simp [List.length_eq_zero.mp h0]
  | succ K ih =>
    intro l hl
    rw [List.range_succ_eq_map]
    simp only [List.map_cons, List.flatten_cons, List.map_map, Nat.zero_mul,
      List.drop_zero]
    have hcomp : ((List.range K).map ((fun j => (l.drop (j * k)).take k) ∘ Nat.succ))
        = (List.range K).map fun j => ((l.drop k).drop (j * k)).take k := by
      apply List.map_congr_left
      intro j _
      simp only [Function.comp_apply, List.drop_drop]
      have h9 : Nat.succ j * k = k + j * k := by
        rw [Nat.succ_mul]
        exact Nat.add_comm _ _
      rw [h9]
    rw [hcomp]
    have harith : ((l.drop k).length + (k - 1)) / k = K := by
      rw [List.length_drop]
      rcases Nat.lt_or_ge l.length k with h | h
      · have h3 : (l.length + (k - 1)) / k < 2 :=
          (Nat.div_lt_iff_lt_mul hk).mpr (by omega)
        have hK : K = 0 := by omega
        have h5 : l.length - k = 0 := by omega
        rw [h5, hK]
        exact Nat.div_eq_of_lt (by omega)
      · have h6 : l.length - k + (k - 1) + k = l.length + (k - 1) := by omega
        have h7 : (l.length - k + (k - 1) + k) / k = (l.length - k + (k - 1)) / k + 1 :=
          Nat.add_div_right _ hk
        rw [h6] at h7
        omega
    rw [ih (l.drop k) harith]
    exact List.take_append_drop k l

/-! ## Helper lemmas on the batch writer -/

theorem appendTrackChunks_length_le {uris : List String} {c : List String}
    (hc : c ∈ appendTrackChunks uris) : c.length ≤ 100 :=
  mem_sliceLoop_length_le hc

theorem appendTrackChunks_ne_nil {uris : List String} {c : List String}
    (hc : c ∈ appendTrackChunks uris) : c ≠ [] :=
  mem_sliceLoop_ne_nil (by norm_num [chunkSizeForAdding]) hc

theorem appendTrackChunks_flatten (uris : List String) :
    (appendTrackChunks uris).flatten = uris :=
  sliceLoop_flatten (by norm_num [chunkSizeForAdding]) uris

theorem createAllSongsCollections_length (dateStr : String) (uris : List String) :
    (createAllSongsCollections dateStr uris).length = (uris.length + 9999) / 10000 := by
  simp [createAllSongsCollections, SPOTIFY_PLAYLIST_LIMIT]

theorem createAllSongsCollections_chunks_mem {dateStr : String} {uris : List String}
    {c : CreatedCollection} (hc : c ∈ createAllSongsCollections dateStr uris) :
    ∃ part : List String, c.chunks = appendTrackChunks part := by
  simp only [createAllSongsCollections, List.mem_map, List.mem_range] at hc
  obtain ⟨p, _, h⟩ := hc
  exact ⟨_, congrArg CreatedCollection.chunks h.symm⟩

theorem createAllSongsCollections_map_flatten (dateStr : String) (uris : List String) :
    (createAllSongsCollections dateStr uris).map (fun c => c.chunks.flatten)
      = sliceLoop SPOTIFY_PLAYLIST_LIMIT uris := by
  simp only [createAllSongsCollections, sliceLoop, List.map_map]
  apply List.map_congr_left
  intro j _
  simp [appendTrackChunks_flatten]

theorem createAllSongsCollections_flatten (dateStr : String) (uris : List String) :
    ((createAllSongsCollections dateStr uris).map (fun c => c.chunks.flatten)).flatten
      = uris := by
  rw [createAllSongsCollections_map_flatten]
  exact sliceLoop_flatten (by norm_num [SPOTIFY_PLAYLIST_LIMIT]) uris

theorem createAllSongsCollections_sizes_sum (dateStr : String) (uris : List String) :
    ((createAllSongsCollections dateStr uris).map
      (fun c => (c.chunks.map List.length).sum)).sum = uris.length := by
  have h1 : (createAllSongsCollections dateStr uris).map
      (fun c => (c.chunks.map List.length).sum)
      = ((createAllSongsCollections dateStr uris).map (fun c => c.chunks.flatten)).map
          List.length := by
    rw [List.map_map]
    apply List.map_congr_left
    intro c _
    simp [List.length_flatten]
  rw [h1, ← List.length_flatten, createAllSongsCollections_flatten]

/-- C1: every run of the dedup-rollup batch writer with N unique track URIs,
per-collection limit 10000 and chunk size 100 creates exactly ceil(N/10000)
collections named with a Part suffix, appending the URIs in chunks of at most
100 items whose counts sum to N; in particular 25000 URIs yield exactly 3
collections. -/
theorem createAllSongs_batching_spec (dateStr : String) (uris : List String) :
    (createAllSongsCollections dateStr uris).length = (uris.length + 9999) / 10000 ∧
    (∀ c ∈ createAllSongsCollections dateStr uris, ∀ ch ∈ c.chunks, ch.length ≤ 100) ∧
    ((createAllSongsCollections dateStr uris).map
      (fun c => (c.chunks.map List.length).sum)).sum = uris.length ∧
    (createAllSongsCollections dateStr uris).map CreatedCollection.name
      = (List.range ((uris.length + 9999) / 10000)).map
          (fun p => allSongsPartName p dateStr) ∧
    (createAllSongsCollections "7/1/2025"
      (List.replicate 25000 "spotify:track:x")).length = 3 := by
  refine ⟨createAllSongsCollections_length _ _, ?_,
    createAllSongsCollections_sizes_sum _ _, ?_, ?_⟩
  · intro c hc ch hch
    obtain ⟨part, hpart⟩ := createAllSongsCollections_chunks_mem hc
    rw [hpart] at hch
    exact appendTrackChunks_length_le hch
  · simp [createAllSongsCollections, List.map_map, SPOTIFY_PLAYLIST_LIMIT]
  · rw [createAllSongsCollections_length, List.length_replicate]

/-- Witness for C1 at the concrete 25000-URI input. -/
theorem createAllSongs_batching_spec_witness :
    (createAllSongsCollections "7/1/2025"
      (List.replicate 25000 "spotify:track:x")).length = 3 :=
  (createAllSongs_batching_spec "7/1/2025"
    (List.replicate 25000 "spotify:track:x")).2.2.2.2

/-- C3: aborting a curation task after k completed network calls makes every
later suspension point observe the aborted signal: the run performs exactly
the first k network calls, reaches the cancelled terminal state, and never
surfaces an error state. -/
theorem cancellation_one_suspension_point (ops : List NetOp) (k : Nat)
    (h : k < ops.length) :
    (runWithAbortSignal k ops).1 = ops.take k ∧
    (runWithAbortSignal k ops).1.length = k ∧
    (runWithAbortSignal k ops).2 = TaskTerminal.cancelled := by
  suffices hs : ∀ (ops : List NetOp) (k : Nat), k < ops.length →
      runWithAbortSignal k ops = (ops.take k, TaskTerminal.cancelled) by
    have h2 := hs ops k h
    refine ⟨by rw [h2], ?_, by rw [h2]⟩
    rw [h2]
    simp [List.length_take]
    omega
  intro ops
  induction ops with
  | nil => intro k hk; simp at hk
  | cons op rest ih =>
    intro k hk
    match k with
    | 0 => rfl
    | n + 1 =>
      simp only [runWithAbortSignal, List.take_succ_cons]
      rw [ih n (by simpa using hk)]

/-- Witness for C3 on the network-call sequence of a small all-songs run. -/
theorem cancellation_one_suspension_point_witness :
    2 < (allSongsNetOps 1 1 "7/1/2025" ["spotify:track:a"]).length ∧
    (runWithAbortSignal 2 (allSongsNetOps 1 1 "7/1/2025" ["spotify:track:a"])).1
      = (allSongsNetOps 1 1 "7/1/2025" ["spotify:track:a"]).take 2 ∧
    (runWithAbortSignal 2 (allSongsNetOps 1 1 "7/1/2025" ["spotify:track:a"])).2
      = TaskTerminal.cancelled :=
  ⟨by decide,
   (cancellation_one_suspension_point _ 2 (by decide)).1,
   (cancellation_one_suspension_point _ 2 (by decide)).2.2⟩

/-- C4: at most one curation task is running at any time across all five
task kinds, and a start attempt while any task is running is dropped by the
disabled guard, leaving the state, including the running task's flag,
unchanged. -/
theorem single_running_curation_task :
    (∀ (s : CreatorLoadingState) (k : CurationKind),
      isAnyCurationLoading s = true → clickStart k s = s) ∧
    (∀ evs : List CreatorEvent, loadingCount (runCreatorEvents evs) ≤ 1) := by
  constructor
  · intro s k h
    simp [clickStart, h]
  · have hstep : ∀ (s : CreatorLoadingState) (e : CreatorEvent),
        loadingCount s ≤ 1 → loadingCount (creatorStep s e) ≤ 1 := by
      intro s e h
      obtain ⟨a, b, c, d, g⟩ := s
      cases e with
      | click k =>
        by_cases hA : isAnyCurationLoading ⟨a, b, c, d, g⟩ = true
        · simp [creatorStep, clickStart, hA]
          exact h
        · simp only [isAnyCurationLoading, Bool.or_eq_true] at hA
          push_neg at hA
          simp only [Bool.not_eq_true] at hA
          cases k <;>
            simp_all [creatorStep, clickStart, isAnyCurationLoading, setLoading,
              loadingCount]
      | finish k =>
        cases k <;>
          simp only [creatorStep, finishTask, setLoading, loadingCount] at h ⊢ <;>
          cases a <;> cases b <;> cases c <;> cases d <;> cases g <;> simp_all
    intro evs
    have hrun : ∀ (evs : List CreatorEvent) (s : CreatorLoadingState),
        loadingCount s ≤ 1 → loadingCount (evs.foldl creatorStep s) ≤ 1 := by
      intro evs
      induction evs with
      | nil => intro s h; exact h
      | cons e rest ih => intro s h; exact ih _ (hstep s e h)
    exact hrun evs creatorInit (by decide)

/-- Witness for C4: a click during a running task is dropped, and a concrete
event interleaving keeps at most one task running. -/
theorem single_running_curation_task_witness :
    clickStart CurationKind.ai
      { isWqxrLoading := true, isCustomLoading := false, isTopTracksLoading := false,
        isAllSongsLoading := false, isGenreFusionLoading := false }
      = { isWqxrLoading := true, isCustomLoading := false, isTopTracksLoading := false,
          isAllSongsLoading := false, isGenreFusionLoading := false } ∧
    loadingCount (runCreatorEvents
      [CreatorEvent.click CurationKind.wqxr, CreatorEvent.click CurationKind.ai,
       CreatorEvent.finish CurationKind.wqxr,
       CreatorEvent.click CurationKind.allSongs]) ≤ 1 :=
  ⟨single_running_curation_task.1 _ CurationKind.ai (by decide),
   single_running_curation_task.2 _⟩

/-! ## Helper lemmas on the library walker -/

theorem setAdd_nodup {s : List String} {x : String} (h : s.Nodup) :
    (setAdd s x).Nodup := by
  unfold setAdd
  split
  · exact h
  · rename_i hx
    simp [List.nodup_append, h, hx]

theorem mem_setAdd {s : List String} {x u : String} (h : u ∈ setAdd s x) :
    u ∈ s ∨ u = x := by
  unfold setAdd at h
  split at h
  · exact .inl h
  · simpa using h

theorem processTrackItem_clean {st : WalkState} (it : PlaylistTrackItem)
    (h1 : st.uniqueTrackUris.Nodup)
    (h2 : ∀ u ∈ st.uniqueTrackUris, isWellFormedTrackUri u = true) :
    (processTrackItem st it).uniqueTrackUris.Nodup ∧
    ∀ u ∈ (processTrackItem st it).uniqueTrackUris, isWellFormedTrackUri u = true := by
  obtain ⟨tk⟩ := it
  cases tk with
  | none => exact ⟨h1, h2⟩
  | some t =>
    obtain ⟨uri, artists⟩ := t
    cases uri with
    | none => exact ⟨h1, h2⟩
    | some u =>
      by_cases hw : isWellFormedTrackUri u = true
      · simp only [processTrackItem, hw, if_true]
        refine ⟨setAdd_nodup h1, ?_⟩
        intro v hv
        rcases mem_setAdd hv with h | h
        · exact h2 v h
        · rw [h]; exact hw
      · simp only [processTrackItem, hw, if_false]
        exact ⟨h1, h2⟩

theorem foldl_processTrackItem_clean (its : List PlaylistTrackItem) :
    ∀ st : WalkState, st.uniqueTrackUris.Nodup →
    (∀ u ∈ st.uniqueTrackUris, isWellFormedTrackUri u = true) →
    (its.foldl processTrackItem st).uniqueTrackUris.Nodup ∧
    ∀ u ∈ (its.foldl processTrackItem st).uniqueTrackUris,
      isWellFormedTrackUri u = true := by
  induction its with
  | nil => intro st h1 h2; exact ⟨h1, h2⟩
  | cons it rest ih =>
    intro st h1 h2
    have hstep := processTrackItem_clean it h1 h2
    exact ih _ hstep.1 hstep.2

theorem processTrackPages_clean (pages : List TrackPage) :
    ∀ st : WalkState, st.uniqueTrackUris.Nodup →
    (∀ u ∈ st.uniqueTrackUris, isWellFormedTrackUri u = true) →
    (processTrackPages st pages).uniqueTrackUris.Nodup ∧
    ∀ u ∈ (processTrackPages st pages).uniqueTrackUris,
      isWellFormedTrackUri u = true := by
  induction pages with
  | nil => intro st h1 h2; exact ⟨h1, h2⟩
  | cons pg rest ih =>
    intro st h1 h2
    cases pg with
    | fetchFailed status => exact ⟨h1, h2⟩
    | page items =>
      cases items with
      | none => exact ih st h1 h2
      | some its =>
        have hstep := foldl_processTrackItem_clean its st h1 h2
        exact ih _ hstep.1 hstep.2

theorem walkPlaylists_clean (playlists : List PlaylistData) :
    (walkPlaylists playlists).uniqueTrackUris.Nodup ∧
    ∀ u ∈ (walkPlaylists playlists).uniqueTrackUris,
      isWellFormedTrackUri u = true := by
  have hfold : ∀ (pls : List PlaylistData) (st : WalkState),
      st.uniqueTrackUris.Nodup →
      (∀ u ∈ st.uniqueTrackUris, isWellFormedTrackUri u = true) →
      (pls.foldl (fun st pl => processTrackPages st pl.trackPages) st).uniqueTrackUris.Nodup ∧
      ∀ u ∈ (pls.foldl (fun st pl => processTrackPages st pl.trackPages)
        st).uniqueTrackUris, isWellFormedTrackUri u = true := by
    intro pls
    induction pls with
    | nil => intro st h1 h2; exact ⟨h1, h2⟩
    | cons pl rest ih =>
      intro st h1 h2
      have hstep := processTrackPages_clean pl.trackPages st h1 h2
      exact ih _ hstep.1 hstep.2
  exact hfold playlists _ (by simp) (by simp)

/-- C2: whatever playlist and track pages the remote API returns, including
null tracks and malformed URIs, the library walk's returned trackIds
collection has no duplicates and contains only well-formed track URIs, and a
null-track item is skipped with exactly one logged warning without altering
the collected identifiers or aborting the walk. -/
theorem walkLibrary_trackIds_clean (pages : List PlaylistsPage) (st : WalkState)
    (h : fetchUniqueTrackUisAndArtistIdsFromPlaylists pages = Except.ok st) :
    st.uniqueTrackUris.Nodup ∧
    (∀ u ∈ st.uniqueTrackUris, isWellFormedTrackUri u = true) ∧
    (∀ (st0 : WalkState) (it : PlaylistTrackItem), it.track = none →
      processTrackItem st0 it = { st0 with warnings := st0.warnings + 1 }) := by
  have hnull : ∀ (st0 : WalkState) (it : PlaylistTrackItem), it.track = none →
      processTrackItem st0 it = { st0 with warnings := st0.warnings + 1 } := by
    intro st0 it hit
    obtain ⟨tk⟩ := it
    cases tk with
    | none => rfl
    | some t => simp at hit
  unfold fetchUniqueTrackUisAndArtistIdsFromPlaylists at h
  cases hc : collectPlaylists pages with
  | error e => rw [hc] at h; simp at h
  | ok pls =>
    rw [hc] at h
    have h2 : (if pls = [] then
          (Except.error "You have no playlists in your Spotify library." :
            Except String WalkState)
        else Except.ok (walkPlaylists pls)) = Except.ok st := h
    split at h2
    · simp at h2
    · have hst : walkPlaylists pls = st := by
        simpa using h2
      have := walkPlaylists_clean pls
      rw [hst] at this
      exact ⟨this.1, this.2, hnull⟩

/-- Witness for C2 on a concrete library containing a null track, a
non-string URI, a duplicate URI and a malformed URI. -/
theorem walkLibrary_trackIds_clean_witness :
    List.Nodup (WalkState.uniqueTrackUris
      { uniqueTrackUris := ["spotify:track:a"], uniqueArtistIds := ["ar1"],
        warnings := 3 }) ∧
    ∀ u ∈ WalkState.uniqueTrackUris
      { uniqueTrackUris := ["spotify:track:a"], uniqueArtistIds := ["ar1"],
        warnings := 3 }, isWellFormedTrackUri u = true :=
  have happ := walkLibrary_trackIds_clean
    [PlaylistsPage.page [{ name := "p1", trackPages := [TrackPage.page (some
      [{ track := some { uri := some "spotify:track:a", artists := [{ id := "ar1" }] } },
       { track := none },
       { track := some { uri := none, artists := [] } },
       { track := some { uri := some "spotify:track:a", artists := [] } },
       { track := some { uri := some "bogus", artists := [] } }])] }]]
    { uniqueTrackUris := ["spotify:track:a"], uniqueArtistIds := ["ar1"],
      warnings := 3 }
    (by rfl)
  ⟨happ.1, happ.2.1⟩

/-! ## Helper lemmas on replicate slices and the failure-injected batch run -/

theorem take_replicate_eq (n m : Nat) (a : α) :
    (List.replicate m a).take n = List.replicate (min n m) a := by
  induction n generalizing m with
  | zero => simp
  | succ n ih =>
    cases m with
    | zero => simp
    | succ m =>
      simp [List.replicate_succ, ih, Nat.succ_min_succ]

theorem drop_replicate_eq (n m : Nat) (a : α) :
    (List.replicate m a).drop n = List.replicate (m - n) a := by
  induction n generalizing m with
  | zero => simp
  | succ n ih =>
    cases m with
    | zero => simp
    | succ m =>
      simp [List.replicate_succ, ih, Nat.succ_sub_succ]

theorem runAppendLoop_none (chunks : List (List String)) (idx : Nat) :
    runAppendLoop chunks idx none = (chunks.length, idx + chunks.length, true) := by
  induction chunks generalizing idx with
  | nil => simp [runAppendLoop]
  | cons c rest ih =>
    simp only [runAppendLoop, ih, List.length_cons, reduceCtorEq, if_false]
    refine Prod.ext rfl (Prod.ext ?_ rfl)
    simp
    omega

theorem runAppendLoop_success (chunks : List (List String)) (idx k : Nat)
    (h : k < idx ∨ idx + chunks.length ≤ k) :
    runAppendLoop chunks idx (some k) = (chunks.length, idx + chunks.length, true) := by
  induction chunks generalizing idx with
  | nil => simp [runAppendLoop]
  | cons c rest ih =>
    have hne : ¬ (some k = some idx) := by
      simp only [Option.some.injEq]
      simp at h
      omega
    rw [runAppendLoop, if_neg hne,
      ih (idx + 1) (by simp at h ⊢; omega)]
    refine Prod.ext ?_ (Prod.ext ?_ rfl) <;> simp <;> omega

theorem runAppendLoop_fails (chunks : List (List String)) (idx k : Nat)
    (h1 : idx ≤ k) (h2 : k < idx + chunks.length) :
    runAppendLoop chunks idx (some k) = (k - idx, k, false) := by
  induction chunks generalizing idx with
  | nil => simp at h2; omega
  | cons c rest ih =>
    by_cases hk : k = idx
    · subst hk
      rw [runAppendLoop, if_pos rfl]
      simp
    · have hne : ¬ (some k = some idx) := by simp [hk]
      rw [runAppendLoop, if_neg hne,
        ih (idx + 1) (by omega) (by simp at h2 ⊢; omega)]
      refine Prod.ext ?_ rfl
      simp
      omega

theorem runCollectionsLoop_none (cols : List CreatedCollection) (idx : Nat) :
    runCollectionsLoop cols idx none
      = (cols.map CreatedCollection.name,
         (cols.map fun c => c.chunks.length).sum, true) := by
  induction cols generalizing idx with
  | nil => simp [runCollectionsLoop]
  | cons c rest ih =>
    simp [runCollectionsLoop, runAppendLoop_none, ih]

theorem runCollectionsLoop_fails (cols : List CreatedCollection) (idx k : Nat)
    (h1 : idx ≤ k) (h2 : k < idx + (cols.map fun c => c.chunks.length).sum) :
    (runCollectionsLoop cols idx (some k)).1 ≠ [] ∧
    (runCollectionsLoop cols idx (some k)).2.1 = k - idx ∧
    (runCollectionsLoop cols idx (some k)).2.2 = false := by
  induction cols generalizing idx with
  | nil => simp at h2; omega
  | cons c rest ih =>
    by_cases hin : k < idx + c.chunks.length
    · have ha := runAppendLoop_fails c.chunks idx k h1 hin
      simp [runCollectionsLoop, ha]
    · push_neg at hin
      have ha := runAppendLoop_success c.chunks idx k (.inr hin)
      have hr := ih (idx + c.chunks.length) hin (by simp at h2 ⊢; omega)
      simp only [runCollectionsLoop, ha]
      simp only [if_true]
      refine ⟨by simp, ?_, hr.2.2⟩
      rw [hr.2.1]
      omega

/-- C5 counterexample: with 101 URIs the batch writer creates one collection
(its first 100-item chunk append succeeds) and the second chunk append
fails; the created collection persists remotely, yet the terminal state
surfaces no created-collection identifier at all, contradicting the claim
that the identifiers of all collections created so far are surfaced. -/
theorem allSongs_created_ids_not_surfaced_cex :
    (runAllSongsBatch "7/1/2025" (List.replicate 101 "spotify:track:x")
      (some 1)).remoteCreated = [allSongsPartName 0 "7/1/2025"] ∧
    (runAllSongsBatch "7/1/2025" (List.replicate 101 "spotify:track:x")
      (some 1)).remoteChunksAppended = 1 ∧
    (runAllSongsBatch "7/1/2025" (List.replicate 101 "spotify:track:x")
      (some 1)).createdPlaylistSurfaced = none := by
  have hcols : createAllSongsCollections "7/1/2025"
      (List.replicate 101 "spotify:track:x")
      = [{ name := allSongsPartName 0 "7/1/2025",
           chunks := appendTrackChunks (List.replicate 101 "spotify:track:x") }] := by
    rw [createAllSongsCollections]
    have hr : (( (List.replicate 101 "spotify:track:x").length
        + (SPOTIFY_PLAYLIST_LIMIT - 1)) / SPOTIFY_PLAYLIST_LIMIT) = 1 := by
      simp [SPOTIFY_PLAYLIST_LIMIT]
    rw [hr, show List.range 1 = [0] from rfl, List.map_cons, List.map_nil]
    norm_num [SPOTIFY_PLAYLIST_LIMIT, take_replicate_eq]
  have hchunklen : (appendTrackChunks
      (List.replicate 101 "spotify:track:x")).length = 2 := by
    rw [appendTrackChunks, sliceLoop_length, List.length_replicate]
    simp [chunkSizeForAdding]
  have ha := runAppendLoop_fails
    (appendTrackChunks (List.replicate 101 "spotify:track:x")) 0 1
    (by omega) (by rw [hchunklen]; omega)
  norm_num at ha
  have hrun : runCollectionsLoop
      [{ name := allSongsPartName 0 "7/1/2025",
         chunks := appendTrackChunks (List.replicate 101 "spotify:track:x") }]
      0 (some 1)
      = ([allSongsPartName 0 "7/1/2025"], 1, false) := by
    simp only [runCollectionsLoop, ha]
    norm_num
  have hne : (List.replicate 101 "spotify:track:x") ≠ [] := by
    intro hcontra
    have := congrArg List.length hcontra
    simp at this
  have hbatch : runAllSongsBatch "7/1/2025" (List.replicate 101 "spotify:track:x")
      (some 1)
      = { createdPlaylistSurfaced := none,
          creatorError := some "Failed to add tracks to playlist",
          remoteCreated := [allSongsPartName 0 "7/1/2025"],
          remoteChunksAppended := 1 } := by
    simp only [runAllSongsBatch, if_neg hne, hcols, hrun]
    simp
  rw [hbatch]
  exact ⟨rfl, rfl, rfl⟩

/-- C5 amended: when a chunk append call fails, the collections already
created and the chunks already appended persist remotely (no rollback), but
their identifiers are not surfaced: the terminal state carries only the
error message and a null createdPlaylist; only a fully successful run
surfaces an identifier, and then only the first created collection's. -/
theorem allSongs_append_failure_surfacing (dateStr : String) (uris : List String)
    (k : Nat) (hne : uris ≠ []) (hk : k < totalAppendCalls dateStr uris) :
    (runAllSongsBatch dateStr uris (some k)).remoteCreated ≠ [] ∧
    (runAllSongsBatch dateStr uris (some k)).remoteChunksAppended = k ∧
    (runAllSongsBatch dateStr uris (some k)).createdPlaylistSurfaced = none ∧
    (runAllSongsBatch dateStr uris (some k)).creatorError
      = some "Failed to add tracks to playlist" ∧
    (runAllSongsBatch dateStr uris none).createdPlaylistSurfaced
      = ((createAllSongsCollections dateStr uris).map CreatedCollection.name).head? := by
  have hq := runCollectionsLoop_fails (createAllSongsCollections dateStr uris) 0 k
    (Nat.zero_le k) (by rw [Nat.zero_add]; exact hk)
  refine ⟨?_, ?_, ?_, ?_, ?_⟩
  · simp only [runAllSongsBatch, if_neg hne, hq.2.2]
    simpa using hq.1
  · simp only [runAllSongsBatch, if_neg hne, hq.2.2]
    simp
    rw [hq.2.1]
    omega
  · simp only [runAllSongsBatch, if_neg hne, hq.2.2]
    simp
  · simp only [runAllSongsBatch, if_neg hne, hq.2.2]
    simp
  · simp only [runAllSongsBatch, if_neg hne, runCollectionsLoop_none]
    simp

/-- Witness for the amended C5 on a one-URI run whose only append call
fails. -/
theorem allSongs_append_failure_surfacing_witness :
    (runAllSongsBatch "7/1/2025" ["spotify:track:a"] (some 0)).remoteChunksAppended
      = 0 ∧
    (runAllSongsBatch "7/1/2025" ["spotify:track:a"] (some 0)).createdPlaylistSurfaced
      = none :=
  have happ := allSongs_append_failure_surfacing "7/1/2025" ["spotify:track:a"] 0
    (by decide) (by decide)
  ⟨happ.2.1, happ.2.2.1⟩

/-- C6 counterexample: a non-2xx search response for the first query makes
the whole batch abort with a thrown TypeError instead of being treated as
no match for that query only; the second query's hit is never surfaced. -/
theorem search_http_error_aborts_batch_cex :
    wqxrSearchLoop [SearchOutcome.httpError 429,
      SearchOutcome.okItems ["spotify:track:a"]]
      = Except.error "TypeError: Cannot read properties of undefined (reading items)" ∧
    wqxrSearchLoop [SearchOutcome.okItems ["spotify:track:a"]]
      = Except.ok ["spotify:track:a"] :=
  ⟨rfl, rfl⟩

/-- C6 amended: a 2xx search response with zero items is treated as no match
for that query and does not abort the batch, which returns the first
candidate of each non-empty 2xx response in order; but any non-2xx response
in the batch raises a TypeError that aborts the entire run with an error. -/
theorem wqxrSearchLoop_error_behavior (resps : List SearchOutcome) :
    ((∀ r ∈ resps, ∃ its, r = SearchOutcome.okItems its) →
      wqxrSearchLoop resps = Except.ok (resps.filterMap firstCandidate)) ∧
    (∀ status, SearchOutcome.httpError status ∈ resps →
      wqxrSearchLoop resps
        = Except.error
            "TypeError: Cannot read properties of undefined (reading items)") := by
  induction resps with
  | nil =>
    constructor
    · intro _; rfl
    · intro status h; simp at h
  | cons r rest ih =>
    constructor
    · intro hall
      obtain ⟨its, rfl⟩ := hall r (by simp)
      have htail : wqxrSearchLoop rest = Except.ok (rest.filterMap firstCandidate) :=
        ih.1 fun x hx => hall x (by simp [hx])
      cases its with
      | nil =>
        simp only [wqxrSearchLoop, htail, List.filterMap_cons]
        rfl
      | cons u us =>
        simp only [wqxrSearchLoop, htail, List.filterMap_cons]
        rfl
    · intro status hmem
      cases r with
      | httpError s => rfl
      | okItems its =>
        have hmem2 : SearchOutcome.httpError status ∈ rest := by
          simpa using hmem
        have htail := ih.2 status hmem2
        simp only [wqxrSearchLoop, htail]
        rfl

/-- Witness for the amended C6 at two concrete batches, one all-2xx with an
empty result in the middle and one containing a non-2xx response. -/
theorem wqxrSearchLoop_error_behavior_witness :
    wqxrSearchLoop [SearchOutcome.okItems ["spotify:track:a"],
      SearchOutcome.okItems [], SearchOutcome.okItems ["spotify:track:b", "x"]]
      = Except.ok ["spotify:track:a", "spotify:track:b"] ∧
    wqxrSearchLoop [SearchOutcome.okItems ["spotify:track:a"],
      SearchOutcome.httpError 500]
      = Except.error
          "TypeError: Cannot read properties of undefined (reading items)" :=
  ⟨(wqxrSearchLoop_error_behavior _).1 (by
      intro r hr
      simp only [List.mem_cons, List.not_mem_nil, or_false] at hr
      rcases hr with rfl | rfl | rfl <;> exact ⟨_, rfl⟩),
   (wqxrSearchLoop_error_behavior _).2 500 (by decide)⟩

/-! ## Helper lemmas on the progress sequence -/

theorem runningSums_cons (acc n : Nat) (l : List Nat) :
    runningSums acc (n :: l) = (acc + n) :: runningSums (acc + n) l :=
  rfl

theorem runningSums_head_ge (acc : Nat) (l : List Nat) :
    ∀ x ∈ (runningSums acc l).head?, acc ≤ x := by
  cases l with
  | nil => intro x hx; simp [runningSums] at hx
  | cons n rest =>
    intro x hx
    simp only [runningSums, List.head?_cons, Option.mem_def, Option.some.injEq] at hx
    omega

theorem runningSums_chain (l : List Nat) :
    ∀ acc : Nat, List.Chain' (· ≤ ·) (runningSums acc l) := by
  induction l with
  | nil => intro acc; simp [runningSums]
  | cons n rest ih =>
    intro acc
    rw [runningSums, List.chain'_cons']
    exact ⟨fun y hy => runningSums_head_ge (acc + n) rest y hy, ih (acc + n)⟩

theorem runningSums_mem_le (l : List Nat) :
    ∀ acc : Nat, ∀ x ∈ runningSums acc l, x ≤ acc + l.sum := by
  induction l with
  | nil => intro acc x hx; simp [runningSums] at hx
  | cons n rest ih =>
    intro acc x hx
    rw [runningSums] at hx
    rcases List.mem_cons.mp hx with rfl | h
    · simp
    · have := ih (acc + n) x h
      simp at this ⊢
      omega

theorem allSongsChunkSizes_sum (dateStr : String) (uris : List String) :
    (allSongsChunkSizes dateStr uris).sum = uris.length := by
  rw [allSongsChunkSizes, List.sum_flatten, List.map_map]
  have := createAllSongsCollections_sizes_sum dateStr uris
  simpa [Function.comp] using this

theorem chunkProgressValue_nonneg (totalSongs c : Nat) :
    0 ≤ chunkProgressValue totalSongs c := by
  unfold chunkProgressValue
  positivity

theorem chunkProgressValue_le_100 (totalSongs c : Nat) (hcle : c ≤ totalSongs) :
    chunkProgressValue totalSongs c ≤ 100 := by
  unfold chunkProgressValue
  rcases Nat.eq_zero_or_pos totalSongs with h0 | h0
  · have hc0 : c = 0 := by omega
    subst hc0
    subst h0
    norm_num
  · have hpos : (0:ℚ) < (totalSongs : ℚ) := by exact_mod_cast h0
    have hdiv : (c : ℚ) / (totalSongs : ℚ) ≤ 1 := by
      rw [div_le_one hpos]
      exact_mod_cast hcle
    nlinarith

theorem chunkProgressValue_mono (totalSongs : Nat) {a b : Nat} (hab : a ≤ b) :
    chunkProgressValue totalSongs a ≤ chunkProgressValue totalSongs b := by
  unfold chunkProgressValue
  have hcast : (a : ℚ) ≤ (b : ℚ) := by exact_mod_cast hab
  rcases eq_or_ne ((totalSongs : ℚ)) 0 with h0 | h0
  · rw [h0]
    simp
  · have hge : (0:ℚ) ≤ (totalSongs : ℚ) := by positivity
    have hpos : (0:ℚ) < (totalSongs : ℚ) := lt_of_le_of_ne hge (Ne.symm h0)
    gcongr

theorem allSongsProgress_value_bounds (dateStr : String) (uris : List String) :
    ∀ x ∈ (runningSums 0 (allSongsChunkSizes dateStr uris)).map
        (chunkProgressValue uris.length),
      0 ≤ x ∧ x ≤ 100 := by
  intro x hx
  obtain ⟨c, hc, rfl⟩ := List.mem_map.mp hx
  have hcle : c ≤ uris.length := by
    have h1 := runningSums_mem_le (allSongsChunkSizes dateStr uris) 0 c hc
    rw [allSongsChunkSizes_sum] at h1
    omega
  exact ⟨chunkProgressValue_nonneg _ _, chunkProgressValue_le_100 _ _ hcle⟩

/-- C7 amended: the progress values of the all-songs rollup all stay within
0 and 100, and the batch-writing updates themselves, the per-chunk values
followed by the final 100, form a non-decreasing sequence; the full reported
sequence however is not monotone in general, because the first chunk update
(c1/N)*90+10 falls below the 15 reported after the library scan whenever
N exceeds 18 times the first chunk size. -/
theorem allSongsProgress_bounds_and_batch_chain (dateStr : String)
    (uris : List String) :
    (∀ x ∈ allSongsProgressUpdates dateStr uris, 0 ≤ x ∧ x ≤ 100) ∧
    List.Chain' (· ≤ ·)
      (((runningSums 0 (allSongsChunkSizes dateStr uris)).map
        (chunkProgressValue uris.length)) ++ [100]) := by
  have hvb := allSongsProgress_value_bounds dateStr uris
  constructor
  · intro x hx
    unfold allSongsProgressUpdates at hx
    split at hx
    · simp only [List.mem_singleton] at hx
      subst hx
      norm_num
    · simp only [List.mem_cons, List.mem_append, List.mem_singleton,
        List.not_mem_nil, or_false] at hx
      rcases hx with rfl | rfl | hx | rfl
      · norm_num
      · norm_num
      · exact hvb _ hx
      · norm_num
  · apply List.Chain'.append
    · exact List.chain'_map_of_chain' _
        (fun a b hab => chunkProgressValue_mono uris.length hab)
        (runningSums_chain _ 0)
    · simp
    · intro x hxlast y hy
      simp only [List.head?_cons, Option.mem_def, Option.some.injEq] at hy
      subst hy
      exact (hvb x (List.mem_of_getLast?_eq_some hxlast)).2

/-- Witness for the amended C7 at a concrete one-URI run. -/
theorem allSongsProgress_bounds_and_batch_chain_witness :
    List.Chain' (· ≤ ·)
      (((runningSums 0 (allSongsChunkSizes "7/1/2025" ["spotify:track:a"])).map
        (chunkProgressValue (["spotify:track:a"] : List String).length)) ++ [100]) :=
  (allSongsProgress_bounds_and_batch_chain "7/1/2025" ["spotify:track:a"]).2

/-- C7 counterexample: with 1801 unique URIs, the reported sequence starts
0, 15, then the first chunk update (100/1801)*90+10, which is strictly below
15, so the progress values reported while running are not monotonically
non-decreasing. -/
theorem allSongsProgress_not_monotone_cex :
    ¬ List.Chain' (· ≤ ·)
      (allSongsProgressUpdates "7/1/2025" (List.replicate 1801 "spotify:track:x")) := by
  have hne : (List.replicate 1801 "spotify:track:x") ≠ [] := by
    intro hcontra
    have hlen := congrArg List.length hcontra
    rw [List.length_replicate] at hlen
    simp at hlen
  have hcols : createAllSongsCollections "7/1/2025"
      (List.replicate 1801 "spotify:track:x")
      = [{ name := allSongsPartName 0 "7/1/2025",
           chunks := appendTrackChunks (List.replicate 1801 "spotify:track:x") }] := by
    rw [createAllSongsCollections]
    have hr : (( (List.replicate 1801 "spotify:track:x").length
        + (SPOTIFY_PLAYLIST_LIMIT - 1)) / SPOTIFY_PLAYLIST_LIMIT) = 1 := by
      rw [List.length_replicate]
      norm_num [SPOTIFY_PLAYLIST_LIMIT]
    rw [hr, show List.range 1 = [0] from rfl, List.map_cons, List.map_nil]
    rw [Nat.zero_mul, List.drop_zero, take_replicate_eq,
      show min SPOTIFY_PLAYLIST_LIMIT 1801 = 1801 by
        norm_num [SPOTIFY_PLAYLIST_LIMIT, Nat.min_def]]
  have hsizes : allSongsChunkSizes "7/1/2025" (List.replicate 1801 "spotify:track:x")
      = 100 :: List.map List.length (List.map
          (fun j => ((List.replicate 1801 "spotify:track:x").drop
            (j * chunkSizeForAdding)).take chunkSizeForAdding)
          ((List.range 18).map Nat.succ)) := by
    rw [allSongsChunkSizes, hcols]
    simp only [List.map_cons, List.map_nil, List.flatten_cons, List.flatten_nil,
      List.append_nil]
    rw [appendTrackChunks, sliceLoop]
    rw [show ((List.replicate 1801 "spotify:track:x").length
        + (chunkSizeForAdding - 1)) / chunkSizeForAdding = 19 by
      rw [List.length_replicate]
      norm_num [chunkSizeForAdding]]
    rw [show List.range 19 = 0 :: (List.range 18).map Nat.succ by decide]
    simp only [List.map_cons]
    rw [show ((List.replicate 1801 "spotify:track:x").drop
        (0 * chunkSizeForAdding)).take chunkSizeForAdding
        = List.replicate 100 "spotify:track:x" by
      rw [Nat.zero_mul, List.drop_zero, take_replicate_eq,
        show min chunkSizeForAdding 1801 = 100 by
          norm_num [chunkSizeForAdding, Nat.min_def]]]
    rw [List.length_replicate]
  intro hchain
  unfold allSongsProgressUpdates at hchain
  rw [if_neg hne, hsizes, runningSums_cons, Nat.zero_add] at hchain
  rw [List.map_cons, List.cons_append] at hchain
  have h15 := (List.chain'_cons.mp (List.chain'_cons.mp hchain).2).1
  rw [List.length_replicate] at h15
  norm_num [chunkProgressValue] at h15

/-! ## Scraper, proxy and login theorems -/

theorem scrapeItem_eq_some (r : RawItem) (t : ScrapedTrack) :
    scrapeItem r = some t ↔
      jsTrim r.titleText ≠ "" ∧ jsTrim r.musiciansText ≠ "" ∧
      t = { title := jsTrim r.titleText, composer := jsTrim r.musiciansText } := by
  simp only [scrapeItem]
  split_ifs with h1 h2
  · simp [h1]
  · simp [h2]
  · simp only [Option.some.injEq]
    constructor
    · intro h
      exact ⟨h1, h2, h.symm⟩
    · intro h
      exact h.2.2.symm

/-- C8: the proxy endpoint validates the presence of year, month and day and
then ignores them: the scrape target is the hardcoded 2025/jun/12 URL, so a
request with any other date, such as year=2024, month=jan, day=05, still
fetches the 2025/jun/12 page and produces the same response. -/
theorem wqxr_proxy_ignores_date :
    (∀ y m d y2 m2 d2 : String, scrapeTargetUrl y m d = scrapeTargetUrl y2 m2 d2) ∧
    scrapeTargetUrl "2024" "jan" "05" = wqxrUrl ∧
    (∀ upstream : String → Except String (List RawItem),
      wqxrHandler { year := some "2024", month := some "jan", day := some "05" }
        upstream
      = wqxrHandler { year := some "2025", month := some "jun", day := some "12" }
        upstream) :=
  ⟨fun _ _ _ _ _ _ => rfl, rfl, fun _ => rfl⟩

/-- C9: for all scraped page content, the scraper emits exactly the entries
whose trimmed title and trimmed musicians text are both non-empty (an entry
missing either field is absent, never present with an empty field), and a
validated request over a page with zero surviving entries is answered with
the empty track list rather than an error. -/
theorem scrape_nonempty_fields_spec (items : List RawItem) :
    (∀ t ∈ scrape items, t.title ≠ "" ∧ t.composer ≠ "") ∧
    (∀ t : ScrapedTrack, t ∈ scrape items ↔ ∃ r ∈ items,
      jsTrim r.titleText ≠ "" ∧ jsTrim r.musiciansText ≠ "" ∧
      t = { title := jsTrim r.titleText, composer := jsTrim r.musiciansText }) ∧
    (∀ (y m d : String) (raw : List RawItem), y ≠ "" → m ≠ "" → d ≠ "" →
      wqxrHandler { year := some y, month := some m, day := some d }
        (fun _ => Except.ok raw) = ProxyResponse.ok (scrape raw)) := by
  have hmem : ∀ t : ScrapedTrack, t ∈ scrape items ↔ ∃ r ∈ items,
      jsTrim r.titleText ≠ "" ∧ jsTrim r.musiciansText ≠ "" ∧
      t = { title := jsTrim r.titleText, composer := jsTrim r.musiciansText } := by
    intro t
    rw [scrape, List.mem_filterMap]
    constructor
    · rintro ⟨r, hr, hsome⟩
      exact ⟨r, hr, (scrapeItem_eq_some r t).mp hsome⟩
    · rintro ⟨r, hr, hc⟩
      exact ⟨r, hr, (scrapeItem_eq_some r t).mpr hc⟩
  refine ⟨?_, hmem, ?_⟩
  · intro t ht
    obtain ⟨r, _, h1, h2, rfl⟩ := (hmem t).mp ht
    exact ⟨h1, h2⟩
  · intro y m d raw hy hm hd
    simp [wqxrHandler, paramTruthy, hy, hm, hd]

/-- Witness for C9 on a concrete page with one complete and one incomplete
entry. -/
theorem scrape_nonempty_fields_spec_witness :
    wqxrHandler { year := some "2025", month := some "jun", day := some "12" }
      (fun _ => Except.ok
        [{ titleText := " Symphony No. 5 ", musiciansText := " Beethoven " },
         { titleText := "Orphaned Title", musiciansText := "   " }])
      = ProxyResponse.ok (scrape
        [{ titleText := " Symphony No. 5 ", musiciansText := " Beethoven " },
         { titleText := "Orphaned Title", musiciansText := "   " }]) ∧
    scrape [{ titleText := " Symphony No. 5 ", musiciansText := " Beethoven " },
            { titleText := "Orphaned Title", musiciansText := "   " }]
      = [{ title := "Symphony No. 5", composer := "Beethoven" }] :=
  ⟨(scrape_nonempty_fields_spec
      [{ titleText := " Symphony No. 5 ", musiciansText := " Beethoven " },
       { titleText := "Orphaned Title", musiciansText := "   " }]).2.2
      "2025" "jun" "12"
      [{ titleText := " Symphony No. 5 ", musiciansText := " Beethoven " },
       { titleText := "Orphaned Title", musiciansText := "   " }]
      (by decide) (by decide) (by decide),
   by decide⟩

/-- C10: generateCodeChallenge evaluates a new-expression on the undefined
identifier Uint9Array, so it throws a ReferenceError on every input, and
handleLogin can never produce its authorization redirect: a non-empty client
id propagates the ReferenceError and an empty client id only sets a login
error. -/
theorem generateCodeChallenge_always_throws :
    (∀ v : String, generateCodeChallenge v
      = Except.error "ReferenceError: Uint9Array is not defined") ∧
    (∀ clientId v : String, handleLogin clientId v
      = if clientId = "" then
          Except.ok (LoginOutcome.loginError "Please enter a valid Spotify Client ID.")
        else Except.error "ReferenceError: Uint9Array is not defined") := by
  have hgen : ∀ v : String, generateCodeChallenge v
      = Except.error "ReferenceError: Uint9Array is not defined" := fun _ => rfl
  refine ⟨hgen, ?_⟩
  intro clientId v
  by_cases hc : clientId = ""
  · simp [handleLogin, hc]
  · rw [handleLogin, if_neg hc, hgen v, if_neg hc]

end SpotifyClone
